import Mathlib

/-!
Verification of the Vial command processor (`src/rmk/src/via/vial.rs`).

The Rust module processes one HID report at a time: it reads a command byte
from the request buffer (`output_data`), dispatches on it, writes a response
into the response buffer (`input_data`), possibly mutates the combo slots of
the shared keymap, and possibly submits one persistence message to the flash
channel.  We embed the module shallowly: byte buffers become `List Nat`
(each entry a byte value), the combo storage of the keymap becomes `List Combo`,
and the flash channel becomes the list of messages submitted so far.
`process_vial` becomes a pure function from the pre-state to the post-state.

Machine integers: all buffer bytes are `u8` and all wire fields are `u16`
read/written little-endian; we use `Nat` with explicit `% 256` / `% 65536`
where the code truncates.  In the page arithmetic of `GetKeyboardDef` the
Rust `usize` addition `start + 32` cannot overflow (`start ≤ 65535 * 32`),
so plain `Nat` addition is exact there; the original `end < start` overflow
guard is kept verbatim (it is decidably false over `Nat`).
-/

/-- Modelled from the spec: the internal action representation
(`crate::action::KeyAction`, not part of the sources under verification).
The processor only ever distinguishes the designated "no action" sentinel
(`KeyAction::No`) from every other action, so other actions are kept
abstract as a code-carrying constructor. -/
inductive KeyAction where
  | No : KeyAction
  | Other : Nat → KeyAction
deriving DecidableEq, Repr

/-- Modelled from the spec: a combo slot (`crate::combo::Combo`, not part of
the sources under verification) holds an ordered trigger-action list whose
storage capacity is at least the protocol maximum of 4, plus one output
action fired by the combo. -/
structure Combo where
  actions : List KeyAction
  output : KeyAction
deriving DecidableEq, Repr

/-- Modelled from the spec: the persistence-message payload
(`crate::storage::ComboData`): real slot index, a fixed 4-element trigger
array padded with the sentinel, and the output action. -/
structure ComboData where
  idx : Nat
  actions : List KeyAction
  output : KeyAction
deriving DecidableEq, Repr

/-- The mutable state touched by `process_vial`: the response buffer
`input_data` of the report, the combo slots of the keymap behind the
`RefCell`, and the sequence of messages sent on `FLASH_CHANNEL` so far
(new messages are appended at the end). -/
structure VialState where
  input_data : List Nat
  combos : List Combo
  sent : List ComboData
deriving DecidableEq, Repr

/-- Vial communication commands (`enum VialCommand`). -/
inductive VialCommand where
  | GetKeyboardId
  | GetSize
  | GetKeyboardDef
  | GetEncoder
  | SetEncoder
  | GetUnlockStatus
  | UnlockStart
  | UnlockPoll
  | Lock
  | QmkSettingsQuery
  | QmkSettingsGet
  | QmkSettingsSet
  | QmkSettingsReset
  | DynamicEntryOp
  | Unhandled
deriving DecidableEq, Repr

/-- `VialCommand::from_primitive`: the `num_enum` total conversion from the
raw byte, with `Unhandled` as the `#[num_enum(default)]` variant. -/
def VialCommand.from_primitive (b : Nat) : VialCommand :=
  if b = 0x00 then .GetKeyboardId
  else if b = 0x01 then .GetSize
  else if b = 0x02 then .GetKeyboardDef
  else if b = 0x03 then .GetEncoder
  else if b = 0x04 then .SetEncoder
  else if b = 0x05 then .GetUnlockStatus
  else if b = 0x06 then .UnlockStart
  else if b = 0x07 then .UnlockPoll
  else if b = 0x08 then .Lock
  else if b = 0x09 then .QmkSettingsQuery
  else if b = 0x0A then .QmkSettingsGet
  else if b = 0x0B then .QmkSettingsSet
  else if b = 0x0C then .QmkSettingsReset
  else if b = 0x0D then .DynamicEntryOp
  else .Unhandled

/-- Vial dynamic-entry sub-commands (`enum VialDynamic`). -/
inductive VialDynamic where
  | DynamicVialGetNumberOfEntries
  | DynamicVialTapDanceGet
  | DynamicVialTapDanceSet
  | DynamicVialComboGet
  | DynamicVialComboSet
  | DynamicVialKeyOverrideGet
  | DynamicVialKeyOverrideSet
  | Unhandled
deriving DecidableEq, Repr

/-- `VialDynamic::from_primitive`: total conversion from the raw sub-command
byte, defaulting to `Unhandled`. -/
def VialDynamic.from_primitive (b : Nat) : VialDynamic :=
  if b = 0x00 then .DynamicVialGetNumberOfEntries
  else if b = 0x01 then .DynamicVialTapDanceGet
  else if b = 0x02 then .DynamicVialTapDanceSet
  else if b = 0x03 then .DynamicVialComboGet
  else if b = 0x04 then .DynamicVialComboSet
  else if b = 0x05 then .DynamicVialKeyOverrideGet
  else if b = 0x06 then .DynamicVialKeyOverrideSet
  else .Unhandled

def VIAL_PROTOCOL_VERSION : Nat := 6

def VIAL_EP_SIZE : Nat := 32

def VIAL_COMBO_MAX_LENGTH : Nat := 4

/-- `LittleEndian::read_u16` over a byte buffer at offset `off`
(out-of-range reads cannot occur on the fixed-size report buffers; `getD`
with default 0 keeps the embedding total). -/
def read_u16 (buf : List Nat) (off : Nat) : Nat :=
  buf.getD off 0 + 256 * buf.getD (off + 1) 0

/-- `LittleEndian::write_u16` at offset `off`: stores the low byte then the
high byte of the 16-bit value. -/
def write_u16 (buf : List Nat) (off : Nat) (v : Nat) : List Nat :=
  (buf.set off (v % 256)).set (off + 1) (v / 256 % 256)

/-- `LittleEndian::write_u32` at offset `off`. -/
def write_u32 (buf : List Nat) (off : Nat) (v : Nat) : List Nat :=
  ((((buf.set off (v % 256)).set (off + 1) (v / 256 % 256)).set
      (off + 2) (v / 65536 % 256)).set (off + 3) (v / 16777216 % 256))

/-- Element-wise copy of `src` into `buf` starting at offset `off`: the
`clone_from_slice` call of GetKeyboardId, the indexed `for_each` copy loop
of GetKeyboardDef, the `input_data[1..11].fill(0)` of ComboGet, and the
sentinel-padding loop of ComboSet are all instances. -/
def writeSlice {α : Type} (buf : List α) (off : Nat) : List α → List α
  | [] => buf
  | b :: bs => writeSlice (buf.set off b) (off + 1) bs

/-- `fn vial_combo`: project a client-visible combo index onto the storage
array.  Translated from the iterator chain
`iter().enumerate().filter(len ≤ 4).enumerate().find_map((i == idx).then_some)`. -/
def vial_combo (combos : List Combo) (idx : Nat) : Option (Nat × Combo) :=
  ((combos.enum.filter fun p => p.2.actions.length ≤ VIAL_COMBO_MAX_LENGTH).enum.findSome?
    fun p => if p.1 = idx then some p.2 else none)

/-- `fn vial_combo_mut`: the mutable-reference variant; the projection logic
is the same iterator chain over `iter_mut()`.  In the embedding the returned
pair identifies the slot to overwrite (by its real index). -/
def vial_combo_mut (combos : List Combo) (idx : Nat) : Option (Nat × Combo) :=
  ((combos.enum.filter fun p => p.2.actions.length ≤ VIAL_COMBO_MAX_LENGTH).enum.findSome?
    fun p => if p.1 = idx then some p.2 else none)

/-- `async fn process_vial`: decode the command byte at `output_data[1]`,
dispatch, and produce the post-state.  `from_via` and `to_via` are the
external keycode translation functions (`from_via_keycode` /
`to_via_keycode`), passed in as parameters since they are external
collaborators of this module.  In ComboSet the `heapless::Vec::push` of each
non-sentinel decoded action never hits the capacity bound (at most 4 pushes,
capacity is at least the protocol maximum 4), so the drop-sentinel loop is a
filter of the 4 decoded actions. -/
def process_vial (from_via : Nat → KeyAction) (to_via : KeyAction → Nat)
    (output_data : List Nat) (vial_keyboard_id : List Nat)
    (vial_keyboard_def : List Nat) (st : VialState) : VialState :=
  match VialCommand.from_primitive (output_data.getD 1 0) with
  | .GetKeyboardId =>
      { st with input_data :=
          writeSlice (write_u32 st.input_data 0 VIAL_PROTOCOL_VERSION) 4 vial_keyboard_id }
  | .GetSize =>
      { st with input_data := write_u32 st.input_data 0 vial_keyboard_def.length }
  | .GetKeyboardDef =>
      let page := read_u16 output_data 2
      let start := page * VIAL_EP_SIZE
      let stop := start + VIAL_EP_SIZE
      if stop < start ∨ start ≥ vial_keyboard_def.length then st
      else
        let stop2 := if stop > vial_keyboard_def.length then vial_keyboard_def.length else stop
        { st with input_data :=
            writeSlice st.input_data 0 ((vial_keyboard_def.drop start).take (stop2 - start)) }
  | .GetUnlockStatus =>
      { st with input_data :=
          ((List.replicate st.input_data.length 0xFF).set 0 1).set 1 0 }
  | .QmkSettingsQuery =>
      { st with input_data := List.replicate st.input_data.length 0xFF }
  | .DynamicEntryOp =>
      match VialDynamic.from_primitive (output_data.getD 2 0) with
      | .DynamicVialGetNumberOfEntries =>
          { st with input_data := ((st.input_data.set 0 0).set 1 8).set 2 0 }
      | .DynamicVialTapDanceGet =>
          { st with input_data := List.replicate st.input_data.length 0 }
      | .DynamicVialTapDanceSet =>
          { st with input_data := List.replicate st.input_data.length 0 }
      | .DynamicVialComboGet =>
          let input1 := st.input_data.set 0 0
          let combo_idx := output_data.getD 3 0
          match vial_combo st.combos combo_idx with
          | some (_, combo) =>
              let input2 :=
                write_u16 (write_u16 (write_u16 (write_u16 input1
                  1 (to_via (combo.actions.getD 0 KeyAction.No)))
                  3 (to_via (combo.actions.getD 1 KeyAction.No)))
                  5 (to_via (combo.actions.getD 2 KeyAction.No)))
                  7 (to_via (combo.actions.getD 3 KeyAction.No))
              { st with input_data := write_u16 input2 9 (to_via combo.output) }
          | none =>
              { st with input_data := writeSlice input1 1 (List.replicate 10 0) }
      | .DynamicVialComboSet =>
          let input1 := st.input_data.set 0 0
          let combo_idx := output_data.getD 3 0
          match vial_combo_mut st.combos combo_idx with
          | none => { st with input_data := input1 }
          | some (real_idx, _) =>
              let decoded :=
                [from_via (read_u16 output_data 4), from_via (read_u16 output_data 6),
                 from_via (read_u16 output_data 8), from_via (read_u16 output_data 10)]
              let actions := decoded.filter fun a => a ≠ KeyAction.No
              let out := from_via (read_u16 output_data 12)
              let padded := writeSlice (List.replicate 4 KeyAction.No) 0 actions
              { input_data := input1,
                combos := st.combos.set real_idx { actions := actions, output := out },
                sent := st.sent ++ [{ idx := real_idx, actions := padded, output := out }] }
      | .DynamicVialKeyOverrideGet =>
          { st with input_data := List.replicate st.input_data.length 0 }
      | .DynamicVialKeyOverrideSet =>
          { st with input_data := List.replicate st.input_data.length 0 }
      | .Unhandled =>
          { st with input_data := List.replicate st.input_data.length 0 }
  | .GetEncoder =>
      { st with input_data := List.replicate st.input_data.length 0 }
  | .SetEncoder => st
  | _ => st

/-- Number of eligible combo slots: slots whose trigger list fits the
protocol maximum of 4 triggers. -/
def countEligible (combos : List Combo) : Nat :=
  (combos.filter fun c => c.actions.length ≤ VIAL_COMBO_MAX_LENGTH).length

/-- Response buffer built by the resolved ComboGet arm: success byte 0,
then the four trigger slots encoded little-endian at offsets 1,3,5,7 (unset
slots encode the sentinel), then the output action at offset 9. -/
def comboGetEncode (tv : KeyAction → Nat) (input : List Nat) (c : Combo) : List Nat :=
  write_u16
    (write_u16
      (write_u16
        (write_u16
          (write_u16 (input.set 0 0) 1 (tv (c.actions.getD 0 KeyAction.No)))
          3 (tv (c.actions.getD 1 KeyAction.No)))
        5 (tv (c.actions.getD 2 KeyAction.No)))
      7 (tv (c.actions.getD 3 KeyAction.No)))
    9 (tv c.output)

/-- The trigger list decoded by the ComboSet arm: the four little-endian
wire keycodes at output offsets 4,6,8,10, translated and with the "no
action" sentinel dropped. -/
def decodedTriggers (fv : Nat → KeyAction) (out : List Nat) : List KeyAction :=
  ([fv (read_u16 out 4), fv (read_u16 out 6), fv (read_u16 out 8),
    fv (read_u16 out 10)].filter fun a => a ≠ KeyAction.No)

/-- The output action decoded by the ComboSet arm from output offsets
`[12,14)`. -/
def decodedOutput (fv : Nat → KeyAction) (out : List Nat) : KeyAction :=
  fv (read_u16 out 12)

/-- Concrete keycode translation pair used to instantiate witnesses: wire
keycode 0 plays the "no action" sentinel. -/
def modelFrom (k : Nat) : KeyAction :=
  if k = 0 then KeyAction.No else KeyAction.Other k

/-- Concrete inverse translation for witnesses. -/
def modelTo : KeyAction → Nat
  | KeyAction.No => 0
  | KeyAction.Other k => k

/-- Splitting lemma for `List.set` under `getElem?`. -/
lemma getElem?_set_split {α : Type} (l : List α) (i j : Nat) (v : α) :
    (l.set i v)[j]? = if i = j ∧ i < l.length then some v else l[j]? := by
  by_cases h : i = j
  · subst h
    by_cases h2 : i < l.length
    · simp [List.getElem?_set_eq_of_lt, h2]
    · rw [if_neg (by omega), List.set_eq_of_length_le (by omega)]
  · simp [h, List.getElem?_set_ne h]

/-- `writeSlice` preserves the buffer length. -/
lemma length_writeSlice {α : Type} :
    ∀ (bs : List α) (buf : List α) (off : Nat), (writeSlice buf off bs).length = buf.length
  | [], _, _ => rfl
  | b :: bs, buf, off => by
      rw [writeSlice, length_writeSlice bs, List.length_set]

/-- Pointwise description of `writeSlice`: positions `off ≤ i < off + |bs|`
inside the buffer take the copied bytes, all other positions are untouched. -/
lemma getElem?_writeSlice {α : Type} :
    ∀ (bs : List α) (buf : List α) (off i : Nat),
      (writeSlice buf off bs)[i]? =
        if off ≤ i ∧ i < off + bs.length ∧ i < buf.length then bs[i - off]? else buf[i]?
  | [], buf, off, i => by
      rw [writeSlice, if_neg (by simp only [List.length_nil]; omega)]
  | b :: bs, buf, off, i => by
      rw [writeSlice, getElem?_writeSlice bs]
      rw [List.length_set, getElem?_set_split]
      by_cases h1 : off + 1 ≤ i ∧ i < off + 1 + bs.length ∧ i < buf.length
      · rw [if_pos h1, if_pos (by simp only [List.length_cons]; omega)]
        have hio : i - off = (i - (off + 1)) + 1 := by omega
        rw [hio, List.getElem?_cons_succ]
      · rw [if_neg h1]
        by_cases h2 : off = i ∧ off < buf.length
        · rw [if_pos h2, if_pos (by simp only [List.length_cons]; omega)]
          have hio : i - off = 0 := by omega
          rw [hio, List.getElem?_cons_zero]
        · rw [if_neg h2, if_neg (by simp only [List.length_cons]; omega)]

/-- `find_map` over an enumerated list selects the element at the requested
index. -/
lemma findSome?_enumFrom_index {α : Type} (idx : Nat) :
    ∀ (l : List α) (n : Nat),
      (List.enumFrom n l).findSome? (fun p => if p.1 = idx then some p.2 else none) =
        if n ≤ idx then l[idx - n]? else none
  | [], n => by
      simp
  | a :: t, n => by
      rw [show List.enumFrom n (a :: t) = (n, a) :: List.enumFrom (n + 1) t from rfl]
      rw [List.findSome?_cons]
      by_cases h : n = idx
      · subst h
        simp
      · simp only [h, if_false]
        rw [findSome?_enumFrom_index idx t (n + 1)]
        by_cases h2 : n + 1 ≤ idx
        · rw [if_pos h2, if_pos (by omega)]
          have hio : idx - n = (idx - (n + 1)) + 1 := by omega
          rw [hio, List.getElem?_cons_succ]
        · rw [if_neg h2, if_neg (by omega)]

/-- Filtering an enumerated list by a predicate on the element part keeps as
many entries as filtering the plain list. -/
lemma length_filter_enumFrom {α : Type} (q : α → Bool) :
    ∀ (l : List α) (n : Nat),
      ((List.enumFrom n l).filter fun p => q p.2).length = (l.filter q).length
  | [], _ => rfl
  | a :: t, n => by
      rw [show List.enumFrom n (a :: t) = (n, a) :: List.enumFrom (n + 1) t from rfl]
      by_cases h : q a
      · rw [List.filter_cons_of_pos (by simpa using h), List.filter_cons_of_pos h]
        simp [length_filter_enumFrom q t (n + 1)]
      · rw [List.filter_cons_of_neg (by simpa using h), List.filter_cons_of_neg h]
        exact length_filter_enumFrom q t (n + 1)

/-- Indexing into the filtered enumeration: the entry at position `v` is the
pair `(r, c)` exactly when `c` sits at offset `r - n` of the plain list,
satisfies the predicate, and is preceded by exactly `v` satisfying entries. -/
lemma getElem?_filter_enumFrom {α : Type} (q : α → Bool) :
    ∀ (l : List α) (n v r : Nat) (c : α),
      (((List.enumFrom n l).filter fun p => q p.2)[v]? = some (r, c)) ↔
        (∃ k, r = n + k ∧ l[k]? = some c ∧ q c = true ∧ ((l.take k).filter q).length = v)
  | [], n, v, r, c => by
      simp
  | a :: t, n, v, r, c => by
      rw [show List.enumFrom n (a :: t) = (n, a) :: List.enumFrom (n + 1) t from rfl]
      by_cases h : q a
      · rw [List.filter_cons_of_pos (by simpa using h)]
        cases v with
        | zero =>
            rw [List.getElem?_cons_zero]
            constructor
            · intro he
              rw [Option.some_inj, Prod.mk.injEq] at he
              obtain ⟨rfl, rfl⟩ := he
              exact ⟨0, by omega, by simp, h, by simp⟩
            · rintro ⟨k, rfl, hget, hq, hlen⟩
              cases k with
              | zero => simp_all
              | succ j =>
                  rw [List.take_succ_cons, List.filter_cons_of_pos h] at hlen
                  simp at hlen
        | succ w =>
            rw [List.getElem?_cons_succ]
            rw [getElem?_filter_enumFrom q t (n + 1) w r c]
            constructor
            · rintro ⟨k, rfl, hget, hq, hlen⟩
              refine ⟨k + 1, by omega, by simpa using hget, hq, ?_⟩
              rw [List.take_succ_cons, List.filter_cons_of_pos h]
              simp [hlen]
            · rintro ⟨k, rfl, hget, hq, hlen⟩
              cases k with
              | zero => simp at hlen
              | succ j =>
                  rw [List.take_succ_cons, List.filter_cons_of_pos h] at hlen
                  simp only [List.length_cons, Nat.succ_inj] at hlen
                  exact ⟨j, by omega, by simpa using hget, hq, by simpa using hlen⟩
      · rw [List.filter_cons_of_neg (by simpa using h)]
        rw [getElem?_filter_enumFrom q t (n + 1) v r c]
        constructor
        · rintro ⟨k, rfl, hget, hq, hlen⟩
          refine ⟨k + 1, by omega, by simpa using hget, hq, ?_⟩
          rw [List.take_succ_cons, List.filter_cons_of_neg h]
          exact hlen
        · rintro ⟨k, rfl, hget, hq, hlen⟩
          cases k with
          | zero =>
              rw [List.getElem?_cons_zero, Option.some_inj] at hget
              subst hget
              simp [hq] at h
          | succ j =>
              rw [List.take_succ_cons, List.filter_cons_of_neg h] at hlen
              exact ⟨j, by omega, by simpa using hget, hq, hlen⟩


/-- `vial_combo` is indexing into the filtered enumeration of the storage
array. -/
lemma vial_combo_eq_getElem? (combos : List Combo) (idx : Nat) :
    vial_combo combos idx =
      (combos.enum.filter fun p => p.2.actions.length ≤ VIAL_COMBO_MAX_LENGTH)[idx]? := by
  unfold vial_combo
  rw [show ((combos.enum.filter fun p =>
        p.2.actions.length ≤ VIAL_COMBO_MAX_LENGTH).enum) =
      List.enumFrom 0 (combos.enum.filter fun p =>
        p.2.actions.length ≤ VIAL_COMBO_MAX_LENGTH) from rfl]
  rw [findSome?_enumFrom_index]
  simp

/-- Full characterisation of `vial_combo`: it yields `(r, c)` at visible
index `v` exactly when `c` is stored at real index `r`, is eligible, and is
preceded by exactly `v` eligible slots. -/
lemma vial_combo_eq_some_iff (combos : List Combo) (v r : Nat) (c : Combo) :
    vial_combo combos v = some (r, c) ↔
      (combos[r]? = some c ∧ c.actions.length ≤ VIAL_COMBO_MAX_LENGTH ∧
        countEligible (combos.take r) = v) := by
  rw [vial_combo_eq_getElem?,
    show combos.enum = List.enumFrom 0 combos from rfl,
    getElem?_filter_enumFrom (fun c => decide (c.actions.length ≤ VIAL_COMBO_MAX_LENGTH))
      combos 0 v r c]
  constructor
  · rintro ⟨k, rfl, hget, hq, hlen⟩
    simp only [Nat.zero_add]
    exact ⟨hget, by simpa using hq, hlen⟩
  · rintro ⟨hget, hq, hlen⟩
    exact ⟨r, by omega, hget, by simpa using hq, hlen⟩

/-- `vial_combo` resolves a visible index exactly when the index is below
the eligible-slot count. -/
lemma vial_combo_isSome_iff (combos : List Combo) (v : Nat) :
    (vial_combo combos v).isSome ↔ v < countEligible combos := by
  rw [vial_combo_eq_getElem?]
  rw [show combos.enum = List.enumFrom 0 combos from rfl]
  rw [Option.isSome_iff_ne_none]
  rw [ne_eq, List.getElem?_eq_none_iff]
  rw [length_filter_enumFrom (fun c => decide (c.actions.length ≤ VIAL_COMBO_MAX_LENGTH))
    combos 0]
  unfold countEligible
  omega

/-- `vial_combo` fails to resolve exactly when the visible index is at or
beyond the eligible-slot count. -/
lemma vial_combo_eq_none_iff (combos : List Combo) (v : Nat) :
    vial_combo combos v = none ↔ countEligible combos ≤ v := by
  rw [← Option.not_isSome_iff_eq_none, vial_combo_isSome_iff]
  omega

/-- Overwriting the resolved slot with an eligible replacement leaves the
projection of the same visible index pointing at the same real slot. -/
lemma vial_combo_set_resolved (combos : List Combo) (v r : Nat) (c c2 : Combo)
    (h : vial_combo combos v = some (r, c))
    (h2 : c2.actions.length ≤ VIAL_COMBO_MAX_LENGTH) :
    vial_combo (combos.set r c2) v = some (r, c2) := by
  rw [vial_combo_eq_some_iff] at h
  obtain ⟨hget, _, hlen⟩ := h
  have hr : r < combos.length := by
    by_contra hcon
    rw [List.getElem?_eq_none (by omega)] at hget
    exact Option.noConfusion hget
  rw [vial_combo_eq_some_iff]
  refine ⟨?_, h2, ?_⟩
  · rw [getElem?_set_split, if_pos ⟨rfl, hr⟩]
  · rw [List.set_take, List.set_eq_of_length_le]
    · exact hlen
    · rw [List.length_take]
      omega

lemma getD_eq_getElem?_getD {α : Type} (l : List α) (i : Nat) (d : α) :
    l.getD i d = l[i]?.getD d := by
  rw [List.getD_eq_getD_get?, List.get?_eq_getElem?]

lemma length_write_u16 (buf : List Nat) (off v : Nat) :
    (write_u16 buf off v).length = buf.length := by
  simp [write_u16]

lemma getElem?_write_u16 (buf : List Nat) (off v i : Nat) :
    (write_u16 buf off v)[i]? =
      if off + 1 = i ∧ off + 1 < buf.length then some (v / 256 % 256)
      else if off = i ∧ off < buf.length then some (v % 256)
      else buf[i]? := by
  unfold write_u16
  rw [getElem?_set_split, List.length_set, getElem?_set_split]

lemma process_vial_unlock (fv : Nat → KeyAction) (tv : KeyAction → Nat)
    (out kid kdef : List Nat) (st : VialState) (hcmd : out.getD 1 0 = 0x05) :
    process_vial fv tv out kid kdef st =
      { st with input_data := ((List.replicate st.input_data.length 0xFF).set 0 1).set 1 0 } := by
  unfold process_vial
  rw [hcmd]
  rfl

/-- The mutable projection agrees with the shared one (identical iterator
chains). -/
lemma vial_combo_mut_eq (combos : List Combo) (idx : Nat) :
    vial_combo_mut combos idx = vial_combo combos idx := rfl

/-- Sentinel-padding a list of at most `n` actions into an `n`-array equals
appending sentinels up to length `n`. -/
lemma writeSlice_replicate {α : Type} (l : List α) (n : Nat) (d : α) (h : l.length ≤ n) :
    writeSlice (List.replicate n d) 0 l = l ++ List.replicate (n - l.length) d := by
  apply List.ext_getElem?
  intro i
  rw [getElem?_writeSlice, List.getElem?_append, List.length_replicate]
  by_cases h1 : i < l.length
  · rw [if_pos ⟨by omega, by omega, by omega⟩, if_pos h1]
    simp
  · rw [if_neg (by omega), if_neg h1, List.getElem?_replicate, List.getElem?_replicate]
    by_cases h2 : i < n
    · rw [if_pos h2, if_pos (by omega)]
    · rw [if_neg h2, if_neg (by omega)]

/-- Unfolding of the GetKeyboardDef arm when the requested page starts
inside the definition blob. -/
lemma process_vial_keyboardDef_inrange (fv : Nat → KeyAction) (tv : KeyAction → Nat)
    (out kid kdef : List Nat) (st : VialState) (hcmd : out.getD 1 0 = 0x02)
    (hin : read_u16 out 2 * 32 < kdef.length) :
    process_vial fv tv out kid kdef st =
      { st with input_data :=
          writeSlice st.input_data 0 ((kdef.drop (read_u16 out 2 * 32)).take
            ((if read_u16 out 2 * 32 + 32 > kdef.length then kdef.length
              else read_u16 out 2 * 32 + 32) - read_u16 out 2 * 32)) } := by
  unfold process_vial
  rw [hcmd]
  show (if read_u16 out 2 * VIAL_EP_SIZE + VIAL_EP_SIZE < read_u16 out 2 * VIAL_EP_SIZE ∨
      read_u16 out 2 * VIAL_EP_SIZE ≥ kdef.length then st else _) = _
  rw [if_neg (by unfold VIAL_EP_SIZE; omega)]
  rfl

/-- Unfolding of the GetKeyboardDef arm when the requested page starts at or
beyond the end of the definition blob: the state is untouched. -/
lemma process_vial_keyboardDef_outrange (fv : Nat → KeyAction) (tv : KeyAction → Nat)
    (out kid kdef : List Nat) (st : VialState) (hcmd : out.getD 1 0 = 0x02)
    (hout : read_u16 out 2 * 32 ≥ kdef.length) :
    process_vial fv tv out kid kdef st = st := by
  unfold process_vial
  rw [hcmd]
  show (if read_u16 out 2 * VIAL_EP_SIZE + VIAL_EP_SIZE < read_u16 out 2 * VIAL_EP_SIZE ∨
      read_u16 out 2 * VIAL_EP_SIZE ≥ kdef.length then st else _) = _
  rw [if_pos (by unfold VIAL_EP_SIZE; omega)]




/-- Unfolding of the ComboGet sub-command when the visible index resolves. -/
lemma process_vial_comboGet_some (fv : Nat → KeyAction) (tv : KeyAction → Nat)
    (out kid kdef : List Nat) (st : VialState) (r : Nat) (c : Combo)
    (hcmd : out.getD 1 0 = 0x0D) (hsub : out.getD 2 0 = 0x03)
    (hres : vial_combo st.combos (out.getD 3 0) = some (r, c)) :
    process_vial fv tv out kid kdef st =
      { st with input_data := comboGetEncode tv st.input_data c } := by
  unfold process_vial
  rw [hcmd, hsub]
  simp only [show VialCommand.from_primitive 0x0D = VialCommand.DynamicEntryOp from rfl,
    show VialDynamic.from_primitive 0x03 = VialDynamic.DynamicVialComboGet from rfl,
    hres]
  rfl

/-- Unfolding of the ComboGet sub-command when the visible index does not
resolve: success byte plus a zero-filled payload in `input[1..11]`. -/
lemma process_vial_comboGet_none (fv : Nat → KeyAction) (tv : KeyAction → Nat)
    (out kid kdef : List Nat) (st : VialState)
    (hcmd : out.getD 1 0 = 0x0D) (hsub : out.getD 2 0 = 0x03)
    (hres : vial_combo st.combos (out.getD 3 0) = none) :
    process_vial fv tv out kid kdef st =
      { st with input_data := writeSlice (st.input_data.set 0 0) 1 (List.replicate 10 0) } := by
  unfold process_vial
  rw [hcmd, hsub]
  simp only [show VialCommand.from_primitive 0x0D = VialCommand.DynamicEntryOp from rfl,
    show VialDynamic.from_primitive 0x03 = VialDynamic.DynamicVialComboGet from rfl,
    hres]

/-- Unfolding of the ComboSet sub-command when the visible index resolves:
the slot is overwritten with the decoded (sentinel-dropped) triggers and
output, and one persistence message is appended. -/
lemma process_vial_comboSet_some (fv : Nat → KeyAction) (tv : KeyAction → Nat)
    (out kid kdef : List Nat) (st : VialState) (r : Nat) (c : Combo)
    (hcmd : out.getD 1 0 = 0x0D) (hsub : out.getD 2 0 = 0x04)
    (hres : vial_combo st.combos (out.getD 3 0) = some (r, c)) :
    process_vial fv tv out kid kdef st =
      { input_data := st.input_data.set 0 0,
        combos := st.combos.set r
          { actions := decodedTriggers fv out, output := decodedOutput fv out },
        sent := st.sent ++
          [{ idx := r,
             actions := writeSlice (List.replicate 4 KeyAction.No) 0 (decodedTriggers fv out),
             output := decodedOutput fv out }] } := by
  unfold process_vial
  rw [hcmd, hsub]
  simp only [show VialCommand.from_primitive 0x0D = VialCommand.DynamicEntryOp from rfl,
    show VialDynamic.from_primitive 0x04 = VialDynamic.DynamicVialComboSet from rfl,
    vial_combo_mut_eq, hres]
  rfl

/-- Unfolding of the ComboSet sub-command when the visible index does not
resolve: only the success byte has been written, nothing else happens. -/
lemma process_vial_comboSet_none (fv : Nat → KeyAction) (tv : KeyAction → Nat)
    (out kid kdef : List Nat) (st : VialState)
    (hcmd : out.getD 1 0 = 0x0D) (hsub : out.getD 2 0 = 0x04)
    (hres : vial_combo st.combos (out.getD 3 0) = none) :
    process_vial fv tv out kid kdef st =
      { st with input_data := st.input_data.set 0 0 } := by
  unfold process_vial
  rw [hcmd, hsub]
  simp only [show VialCommand.from_primitive 0x0D = VialCommand.DynamicEntryOp from rfl,
    show VialDynamic.from_primitive 0x04 = VialDynamic.DynamicVialComboSet from rfl,
    vial_combo_mut_eq, hres]

/-- Any command byte outside the handled set (identity, size, definition,
encoders, unlock status, settings query, dynamic-entry) falls into the
default arm and leaves the whole state untouched. -/
lemma process_vial_default (fv : Nat → KeyAction) (tv : KeyAction → Nat)
    (out kid kdef : List Nat) (st : VialState)
    (h0 : out.getD 1 0 ≠ 0x00) (h1 : out.getD 1 0 ≠ 0x01) (h2 : out.getD 1 0 ≠ 0x02)
    (h3 : out.getD 1 0 ≠ 0x03) (h4 : out.getD 1 0 ≠ 0x04) (h5 : out.getD 1 0 ≠ 0x05)
    (h9 : out.getD 1 0 ≠ 0x09) (h13 : out.getD 1 0 ≠ 0x0D) :
    process_vial fv tv out kid kdef st = st := by
  unfold process_vial VialCommand.from_primitive
  rw [if_neg h0, if_neg h1, if_neg h2, if_neg h3, if_neg h4, if_neg h5]
  by_cases h6 : out.getD 1 0 = 0x06
  · rw [if_pos h6]
  · rw [if_neg h6]
    by_cases h7 : out.getD 1 0 = 0x07
    · rw [if_pos h7]
    · rw [if_neg h7]
      by_cases h8 : out.getD 1 0 = 0x08
      · rw [if_pos h8]
      · rw [if_neg h8, if_neg h9]
        by_cases h10 : out.getD 1 0 = 0x0A
        · rw [if_pos h10]
        · rw [if_neg h10]
          by_cases h11 : out.getD 1 0 = 0x0B
          · rw [if_pos h11]
          · rw [if_neg h11]
            by_cases h12 : out.getD 1 0 = 0x0C
            · rw [if_pos h12]
            · rw [if_neg h12, if_neg h13]



/-- Reading a just-written 16-bit field back returns its low 16 bits. -/
lemma read_u16_write_u16 (buf : List Nat) (off v : Nat)
    (hb : buf.length = 32) (hoff : off + 1 < 32) :
    read_u16 (write_u16 buf off v) off = v % 65536 := by
  simp only [read_u16, getD_eq_getElem?_getD]
  rw [getElem?_write_u16, getElem?_write_u16, hb]
  rw [if_neg (show ¬(off + 1 = off ∧ off + 1 < 32) by omega),
    if_pos (show off = off ∧ off < 32 from ⟨rfl, by omega⟩),
    if_pos (show off + 1 = off + 1 ∧ off + 1 < 32 from ⟨rfl, hoff⟩)]
  simp only [Option.getD_some]
  omega

/-- A 16-bit write strictly above a 16-bit field does not disturb reading
that field. -/
lemma read_u16_write_u16_above (buf : List Nat) (off off2 v : Nat) (h : off + 1 < off2) :
    read_u16 (write_u16 buf off2 v) off = read_u16 buf off := by
  simp only [read_u16, getD_eq_getElem?_getD]
  rw [getElem?_write_u16, getElem?_write_u16]
  rw [if_neg (show ¬(off2 + 1 = off ∧ off2 + 1 < buf.length) by omega),
    if_neg (show ¬(off2 = off ∧ off2 < buf.length) by omega),
    if_neg (show ¬(off2 + 1 = off + 1 ∧ off2 + 1 < buf.length) by omega),
    if_neg (show ¬(off2 = off + 1 ∧ off2 < buf.length) by omega)]

/-- Reading the encoded ComboGet response back: each of the five
little-endian fields returns its 16-bit value. -/
lemma read_u16_comboGetEncode (tv : KeyAction → Nat) (input : List Nat) (c : Combo)
    (hlen : input.length = 32) :
    read_u16 (comboGetEncode tv input c) 1 = tv (c.actions.getD 0 KeyAction.No) % 65536 ∧
    read_u16 (comboGetEncode tv input c) 3 = tv (c.actions.getD 1 KeyAction.No) % 65536 ∧
    read_u16 (comboGetEncode tv input c) 5 = tv (c.actions.getD 2 KeyAction.No) % 65536 ∧
    read_u16 (comboGetEncode tv input c) 7 = tv (c.actions.getD 3 KeyAction.No) % 65536 ∧
    read_u16 (comboGetEncode tv input c) 9 = tv c.output % 65536 := by
  have hb0 : (input.set 0 0).length = 32 := by
    rw [List.length_set, hlen]
  have hb1 : (write_u16 (input.set 0 0) 1 (tv (c.actions.getD 0 KeyAction.No))).length = 32 := by
    rw [length_write_u16, hb0]
  have hb3 : (write_u16 (write_u16 (input.set 0 0) 1 (tv (c.actions.getD 0 KeyAction.No)))
      3 (tv (c.actions.getD 1 KeyAction.No))).length = 32 := by
    rw [length_write_u16, hb1]
  have hb5 : (write_u16 (write_u16 (write_u16 (input.set 0 0)
        1 (tv (c.actions.getD 0 KeyAction.No)))
        3 (tv (c.actions.getD 1 KeyAction.No)))
        5 (tv (c.actions.getD 2 KeyAction.No))).length = 32 := by
    rw [length_write_u16, hb3]
  have hb7 : (write_u16 (write_u16 (write_u16 (write_u16 (input.set 0 0)
        1 (tv (c.actions.getD 0 KeyAction.No)))
        3 (tv (c.actions.getD 1 KeyAction.No)))
        5 (tv (c.actions.getD 2 KeyAction.No)))
        7 (tv (c.actions.getD 3 KeyAction.No))).length = 32 := by
    rw [length_write_u16, hb5]
  refine ⟨?_, ?_, ?_, ?_, ?_⟩
  · rw [comboGetEncode,
      read_u16_write_u16_above _ 1 9 _ (by omega),
      read_u16_write_u16_above _ 1 7 _ (by omega),
      read_u16_write_u16_above _ 1 5 _ (by omega),
      read_u16_write_u16_above _ 1 3 _ (by omega),
      read_u16_write_u16 _ 1 _ hb0 (by omega)]
  · rw [comboGetEncode,
      read_u16_write_u16_above _ 3 9 _ (by omega),
      read_u16_write_u16_above _ 3 7 _ (by omega),
      read_u16_write_u16_above _ 3 5 _ (by omega),
      read_u16_write_u16 _ 3 _ hb1 (by omega)]
  · rw [comboGetEncode,
      read_u16_write_u16_above _ 5 9 _ (by omega),
      read_u16_write_u16_above _ 5 7 _ (by omega),
      read_u16_write_u16 _ 5 _ hb3 (by omega)]
  · rw [comboGetEncode,
      read_u16_write_u16_above _ 7 9 _ (by omega),
      read_u16_write_u16 _ 7 _ hb5 (by omega)]
  · rw [comboGetEncode,
      read_u16_write_u16 _ 9 _ hb7 (by omega)]

/-- C1: `vial_combo` returns `some (real_index, combo)` at visible index `v`
iff at least `v + 1` slots have trigger-list length ≤ 4, and the returned
pair is the `(v+1)`-th eligible slot in storage order together with its
array position (exactly `v` eligible slots precede it); otherwise it
returns `none`.  Eligibility depends only on the trigger-list length. -/
theorem vial_combo_projection_correct (combos : List Combo) (v : Nat) :
    ((vial_combo combos v).isSome ↔ v + 1 ≤ countEligible combos) ∧
    (∀ r c, vial_combo combos v = some (r, c) ↔
      (combos[r]? = some c ∧ c.actions.length ≤ 4 ∧ countEligible (combos.take r) = v)) := by
  constructor
  · rw [vial_combo_isSome_iff]
    omega
  · intro r c
    rw [vial_combo_eq_some_iff]
    exact Iff.rfl

/-- C10: the read-path projection `vial_combo` (used by ComboGet) and the
write-path projection `vial_combo_mut` (used by ComboSet) resolve every
visible index of every storage array to the same real index and slot. -/
theorem vial_combo_mut_agrees (combos : List Combo) (idx : Nat) :
    vial_combo_mut combos idx = vial_combo combos idx := rfl

/-- C8: for every request carrying the GetUnlockStatus command and every
state, the response buffer holds 1 at byte 0, 0 at byte 1, and 0xFF at
every other position. -/
theorem getUnlockStatus_response (fv : Nat → KeyAction) (tv : KeyAction → Nat)
    (out kid kdef : List Nat) (st : VialState)
    (hcmd : out.getD 1 0 = 0x05) (hlen : 2 ≤ st.input_data.length) :
    (process_vial fv tv out kid kdef st).input_data[0]? = some 1 ∧
    (process_vial fv tv out kid kdef st).input_data[1]? = some 0 ∧
    ∀ i, 2 ≤ i → i < st.input_data.length →
      (process_vial fv tv out kid kdef st).input_data[i]? = some 0xFF := by
  rw [process_vial_unlock fv tv out kid kdef st hcmd]
  refine ⟨?_, ?_, ?_⟩
  · rw [getElem?_set_split, if_neg (by omega), getElem?_set_split, List.length_replicate,
      if_pos ⟨rfl, by omega⟩]
  · rw [getElem?_set_split, List.length_set, List.length_replicate, if_pos ⟨rfl, by omega⟩]
  · intro i h2 hi
    rw [getElem?_set_split, if_neg (by omega), getElem?_set_split, if_neg (by omega),
      List.getElem?_replicate, if_pos hi]

theorem getUnlockStatus_response_witness :
    (([0xFE, 0x05] : List Nat).getD 1 0 = 0x05 ∧
      2 ≤ ([170, 170, 170, 170] : List Nat).length) ∧
    ((process_vial modelFrom modelTo [0xFE, 0x05] [] []
        ⟨[170, 170, 170, 170], [], []⟩).input_data[0]? = some 1 ∧
      (process_vial modelFrom modelTo [0xFE, 0x05] [] []
        ⟨[170, 170, 170, 170], [], []⟩).input_data[1]? = some 0 ∧
      ∀ i, 2 ≤ i → i < (VialState.mk [170, 170, 170, 170] [] []).input_data.length →
        (process_vial modelFrom modelTo [0xFE, 0x05] [] []
          ⟨[170, 170, 170, 170], [], []⟩).input_data[i]? = some 0xFF) :=
  ⟨⟨by decide, by decide⟩,
    getUnlockStatus_response modelFrom modelTo [0xFE, 0x05] [] []
      ⟨[170, 170, 170, 170], [], []⟩ (by decide) (by decide)⟩

/-- C5: for every ComboSet request, whether or not the visible index
resolves, the success code 0 is written to input byte 0; the success byte
never reflects a failure to resolve. -/
theorem comboSet_success_byte (fv : Nat → KeyAction) (tv : KeyAction → Nat)
    (out kid kdef : List Nat) (st : VialState)
    (hcmd : out.getD 1 0 = 0x0D) (hsub : out.getD 2 0 = 0x04)
    (hlen : 0 < st.input_data.length) :
    (process_vial fv tv out kid kdef st).input_data[0]? = some 0 := by
  cases hres : vial_combo st.combos (out.getD 3 0) with
  | none =>
      rw [process_vial_comboSet_none fv tv out kid kdef st hcmd hsub hres]
      rw [getElem?_set_split, if_pos ⟨rfl, hlen⟩]
  | some rc =>
      obtain ⟨r, c⟩ := rc
      rw [process_vial_comboSet_some fv tv out kid kdef st r c hcmd hsub hres]
      rw [getElem?_set_split, if_pos ⟨rfl, hlen⟩]

theorem comboSet_success_byte_witness :
    (([0xFE, 0x0D, 0x04, 0] : List Nat).getD 1 0 = 0x0D ∧
      ([0xFE, 0x0D, 0x04, 0] : List Nat).getD 2 0 = 0x04 ∧
      0 < ([7, 7] : List Nat).length) ∧
    (process_vial modelFrom modelTo [0xFE, 0x0D, 0x04, 0] [] []
      ⟨[7, 7], [], []⟩).input_data[0]? = some 0 :=
  ⟨⟨by decide, by decide, by decide⟩,
    comboSet_success_byte modelFrom modelTo [0xFE, 0x0D, 0x04, 0] [] []
      ⟨[7, 7], [], []⟩ (by decide) (by decide) (by decide)⟩

/-- C9: any top-level command byte outside the handled set (GetKeyboardId,
GetSize, GetKeyboardDef, GetEncoder, SetEncoder, GetUnlockStatus,
QmkSettingsQuery, DynamicEntryOp) — e.g. 0x7F — leaves the response buffer,
the combo store and the persistence channel untouched. -/
theorem unknown_command_no_effect (fv : Nat → KeyAction) (tv : KeyAction → Nat)
    (out kid kdef : List Nat) (st : VialState)
    (h0 : out.getD 1 0 ≠ 0x00) (h1 : out.getD 1 0 ≠ 0x01) (h2 : out.getD 1 0 ≠ 0x02)
    (h3 : out.getD 1 0 ≠ 0x03) (h4 : out.getD 1 0 ≠ 0x04) (h5 : out.getD 1 0 ≠ 0x05)
    (h9 : out.getD 1 0 ≠ 0x09) (h13 : out.getD 1 0 ≠ 0x0D) :
    (process_vial fv tv out kid kdef st).input_data = st.input_data ∧
    (process_vial fv tv out kid kdef st).combos = st.combos ∧
    (process_vial fv tv out kid kdef st).sent = st.sent := by
  rw [process_vial_default fv tv out kid kdef st h0 h1 h2 h3 h4 h5 h9 h13]
  exact ⟨rfl, rfl, rfl⟩

theorem unknown_command_no_effect_witness :
    (([0xFE, 0x7F] : List Nat).getD 1 0 ≠ 0x00 ∧ ([0xFE, 0x7F] : List Nat).getD 1 0 ≠ 0x01 ∧
      ([0xFE, 0x7F] : List Nat).getD 1 0 ≠ 0x02 ∧ ([0xFE, 0x7F] : List Nat).getD 1 0 ≠ 0x03 ∧
      ([0xFE, 0x7F] : List Nat).getD 1 0 ≠ 0x04 ∧ ([0xFE, 0x7F] : List Nat).getD 1 0 ≠ 0x05 ∧
      ([0xFE, 0x7F] : List Nat).getD 1 0 ≠ 0x09 ∧ ([0xFE, 0x7F] : List Nat).getD 1 0 ≠ 0x0D) ∧
    ((process_vial modelFrom modelTo [0xFE, 0x7F] [] []
        ⟨[3, 4], [], []⟩).input_data = (VialState.mk [3, 4] [] []).input_data ∧
      (process_vial modelFrom modelTo [0xFE, 0x7F] [] []
        ⟨[3, 4], [], []⟩).combos = (VialState.mk [3, 4] [] []).combos ∧
      (process_vial modelFrom modelTo [0xFE, 0x7F] [] []
        ⟨[3, 4], [], []⟩).sent = (VialState.mk [3, 4] [] []).sent) :=
  ⟨⟨by decide, by decide, by decide, by decide, by decide, by decide, by decide, by decide⟩,
    unknown_command_no_effect modelFrom modelTo [0xFE, 0x7F] [] [] ⟨[3, 4], [], []⟩
      (by decide) (by decide) (by decide) (by decide) (by decide) (by decide)
      (by decide) (by decide)⟩

/-- C4 counterexample: a ComboSet request whose visible index does not
resolve (empty storage) still modifies byte 0 of the input buffer (the
pre-written success code), refuting "no byte of the input buffer is
modified". -/
theorem comboSet_unresolved_counterexample :
    vial_combo (VialState.mk [7] [] []).combos (([0xFE, 0x0D, 0x04, 0] : List Nat).getD 3 0) =
        none ∧
    (process_vial modelFrom modelTo [0xFE, 0x0D, 0x04, 0] [] []
      ⟨[7], [], []⟩).input_data ≠ (VialState.mk [7] [] []).input_data := by
  constructor
  · decide
  · decide

/-- C4 (amended): a ComboSet request whose visible index does not resolve
performs no store mutation and no persistence submission, and leaves every
byte of the input buffer unmodified except byte 0, which carries the
pre-written success code 0. -/
theorem comboSet_unresolved_no_effect (fv : Nat → KeyAction) (tv : KeyAction → Nat)
    (out kid kdef : List Nat) (st : VialState)
    (hcmd : out.getD 1 0 = 0x0D) (hsub : out.getD 2 0 = 0x04)
    (hres : vial_combo st.combos (out.getD 3 0) = none) :
    (process_vial fv tv out kid kdef st).combos = st.combos ∧
    (process_vial fv tv out kid kdef st).sent = st.sent ∧
    (∀ i, i ≠ 0 → (process_vial fv tv out kid kdef st).input_data[i]? = st.input_data[i]?) ∧
    (0 < st.input_data.length →
      (process_vial fv tv out kid kdef st).input_data[0]? = some 0) := by
  rw [process_vial_comboSet_none fv tv out kid kdef st hcmd hsub hres]
  refine ⟨rfl, rfl, ?_, ?_⟩
  · intro i hi
    rw [getElem?_set_split, if_neg (by omega)]
  · intro hlen
    rw [getElem?_set_split, if_pos ⟨rfl, hlen⟩]

theorem comboSet_unresolved_no_effect_witness :
    (([0xFE, 0x0D, 0x04, 0] : List Nat).getD 1 0 = 0x0D ∧
      ([0xFE, 0x0D, 0x04, 0] : List Nat).getD 2 0 = 0x04 ∧
      vial_combo (VialState.mk [7] [] []).combos
        (([0xFE, 0x0D, 0x04, 0] : List Nat).getD 3 0) = none) ∧
    ((process_vial modelFrom modelTo [0xFE, 0x0D, 0x04, 0] [] []
        ⟨[7], [], []⟩).combos = (VialState.mk [7] [] []).combos ∧
      (process_vial modelFrom modelTo [0xFE, 0x0D, 0x04, 0] [] []
        ⟨[7], [], []⟩).sent = (VialState.mk [7] [] []).sent ∧
      (∀ i, i ≠ 0 →
        (process_vial modelFrom modelTo [0xFE, 0x0D, 0x04, 0] [] []
          ⟨[7], [], []⟩).input_data[i]? = (VialState.mk [7] [] []).input_data[i]?) ∧
      (0 < (VialState.mk [7] [] []).input_data.length →
        (process_vial modelFrom modelTo [0xFE, 0x0D, 0x04, 0] [] []
          ⟨[7], [], []⟩).input_data[0]? = some 0)) :=
  ⟨⟨by decide, by decide, by decide⟩,
    comboSet_unresolved_no_effect modelFrom modelTo [0xFE, 0x0D, 0x04, 0] [] []
      ⟨[7], [], []⟩ (by decide) (by decide) (by decide)⟩

/-- C7: a ComboGet request whose visible index does not resolve yields
success code 0 at byte 0 and a zero payload in bytes `[1,11)`; bytes from
index 11 onward stay as they were. -/
theorem comboGet_unresolved_zero_payload (fv : Nat → KeyAction) (tv : KeyAction → Nat)
    (out kid kdef : List Nat) (st : VialState)
    (hcmd : out.getD 1 0 = 0x0D) (hsub : out.getD 2 0 = 0x03)
    (hres : vial_combo st.combos (out.getD 3 0) = none)
    (hlen : 11 ≤ st.input_data.length) :
    (process_vial fv tv out kid kdef st).input_data[0]? = some 0 ∧
    (∀ i, 1 ≤ i → i < 11 →
      (process_vial fv tv out kid kdef st).input_data[i]? = some 0) ∧
    (∀ i, 11 ≤ i →
      (process_vial fv tv out kid kdef st).input_data[i]? = st.input_data[i]?) := by
  rw [process_vial_comboGet_none fv tv out kid kdef st hcmd hsub hres]
  refine ⟨?_, ?_, ?_⟩
  · rw [getElem?_writeSlice, if_neg (by omega), getElem?_set_split,
      if_pos ⟨rfl, by omega⟩]
  · intro i h1 h11
    rw [getElem?_writeSlice,
      if_pos ⟨h1, by simp only [List.length_replicate, List.length_set]; omega⟩,
      List.getElem?_replicate, if_pos (by omega)]
  · intro i h11
    rw [getElem?_writeSlice, if_neg (by simp only [List.length_replicate]; omega),
      getElem?_set_split, if_neg (by omega)]

theorem comboGet_unresolved_zero_payload_witness :
    (([0xFE, 0x0D, 0x03, 0] : List Nat).getD 1 0 = 0x0D ∧
      ([0xFE, 0x0D, 0x03, 0] : List Nat).getD 2 0 = 0x03 ∧
      vial_combo (VialState.mk (List.replicate 32 7) [] []).combos
        (([0xFE, 0x0D, 0x03, 0] : List Nat).getD 3 0) = none ∧
      11 ≤ (VialState.mk (List.replicate 32 7) [] []).input_data.length) ∧
    ((process_vial modelFrom modelTo [0xFE, 0x0D, 0x03, 0] [] []
        ⟨List.replicate 32 7, [], []⟩).input_data[0]? = some 0 ∧
      (∀ i, 1 ≤ i → i < 11 →
        (process_vial modelFrom modelTo [0xFE, 0x0D, 0x03, 0] [] []
          ⟨List.replicate 32 7, [], []⟩).input_data[i]? = some 0) ∧
      (∀ i, 11 ≤ i →
        (process_vial modelFrom modelTo [0xFE, 0x0D, 0x03, 0] [] []
          ⟨List.replicate 32 7, [], []⟩).input_data[i]? =
          (VialState.mk (List.replicate 32 7) [] []).input_data[i]?)) :=
  ⟨⟨by decide, by decide, by decide, by decide⟩,
    comboGet_unresolved_zero_payload modelFrom modelTo [0xFE, 0x0D, 0x03, 0] [] []
      ⟨List.replicate 32 7, [], []⟩ (by decide) (by decide) (by decide) (by decide)⟩

/-- C2: GetKeyboardDef with page `p` (little-endian at output `[2,4)`):
when `p*32 < |blob|`, exactly the bytes `blob[p*32 .. min (p*32+32) |blob|)`
are copied to the start of the response buffer and every other byte is
untouched; when `p*32 ≥ |blob|` (the page arithmetic cannot overflow over
`Nat`), the state is returned unmodified. -/
theorem getKeyboardDef_pages (fv : Nat → KeyAction) (tv : KeyAction → Nat)
    (out kid kdef : List Nat) (st : VialState)
    (hcmd : out.getD 1 0 = 0x02) (hlen : st.input_data.length = 32) :
    (read_u16 out 2 * 32 < kdef.length →
      (∀ i, i < min (read_u16 out 2 * 32 + 32) kdef.length - read_u16 out 2 * 32 →
        (process_vial fv tv out kid kdef st).input_data[i]? =
          kdef[read_u16 out 2 * 32 + i]?) ∧
      (∀ i, min (read_u16 out 2 * 32 + 32) kdef.length - read_u16 out 2 * 32 ≤ i →
        (process_vial fv tv out kid kdef st).input_data[i]? = st.input_data[i]?)) ∧
    (kdef.length ≤ read_u16 out 2 * 32 → process_vial fv tv out kid kdef st = st) := by
  constructor
  · intro hin
    rw [process_vial_keyboardDef_inrange fv tv out kid kdef st hcmd hin,
      show (if read_u16 out 2 * 32 + 32 > kdef.length then kdef.length
          else read_u16 out 2 * 32 + 32) =
        min (read_u16 out 2 * 32 + 32) kdef.length by split_ifs with h <;> omega]
    constructor
    · intro i hi
      rw [getElem?_writeSlice,
        if_pos ⟨Nat.zero_le i,
          by rw [Nat.zero_add, List.length_take, List.length_drop]; omega,
          by rw [hlen]; omega⟩,
        Nat.sub_zero, List.getElem?_take, if_pos (by omega), List.getElem?_drop]
    · intro i hi
      rw [getElem?_writeSlice,
        if_neg (by rw [Nat.zero_add, List.length_take, List.length_drop]; omega)]
  · intro hout
    exact process_vial_keyboardDef_outrange fv tv out kid kdef st hcmd hout

theorem getKeyboardDef_pages_witness :
    (([0xFE, 0x02, 1, 0] : List Nat).getD 1 0 = 0x02 ∧
      (VialState.mk (List.replicate 32 0) [] []).input_data.length = 32) ∧
    ((read_u16 [0xFE, 0x02, 1, 0] 2 * 32 < (List.replicate 40 9 : List Nat).length →
      (∀ i, i < min (read_u16 [0xFE, 0x02, 1, 0] 2 * 32 + 32)
            (List.replicate 40 9 : List Nat).length - read_u16 [0xFE, 0x02, 1, 0] 2 * 32 →
        (process_vial modelFrom modelTo [0xFE, 0x02, 1, 0] [] (List.replicate 40 9)
          ⟨List.replicate 32 0, [], []⟩).input_data[i]? =
          (List.replicate 40 9 : List Nat)[read_u16 [0xFE, 0x02, 1, 0] 2 * 32 + i]?) ∧
      (∀ i, min (read_u16 [0xFE, 0x02, 1, 0] 2 * 32 + 32)
            (List.replicate 40 9 : List Nat).length - read_u16 [0xFE, 0x02, 1, 0] 2 * 32 ≤ i →
        (process_vial modelFrom modelTo [0xFE, 0x02, 1, 0] [] (List.replicate 40 9)
          ⟨List.replicate 32 0, [], []⟩).input_data[i]? =
          (VialState.mk (List.replicate 32 0) [] []).input_data[i]?)) ∧
    ((List.replicate 40 9 : List Nat).length ≤ read_u16 [0xFE, 0x02, 1, 0] 2 * 32 →
      process_vial modelFrom modelTo [0xFE, 0x02, 1, 0] [] (List.replicate 40 9)
        ⟨List.replicate 32 0, [], []⟩ = ⟨List.replicate 32 0, [], []⟩)) :=
  ⟨⟨by decide, by decide⟩,
    getKeyboardDef_pages modelFrom modelTo [0xFE, 0x02, 1, 0] [] (List.replicate 40 9)
      ⟨List.replicate 32 0, [], []⟩ (by decide) (by decide)⟩

/-- C3: a ComboSet request whose visible index resolves to real slot `r`
overwrites that slot with exactly the non-sentinel decoded trigger actions
(in order) and the decoded output; the new trigger list has length ≤ 4 so
the slot stays eligible and still resolves at the same visible index; and
exactly one persistence message is appended, carrying the real index, the
stored list sentinel-padded to 4 entries, and the output action. -/
theorem comboSet_resolved_updates (fv : Nat → KeyAction) (tv : KeyAction → Nat)
    (out kid kdef : List Nat) (st : VialState) (r : Nat) (c : Combo)
    (hcmd : out.getD 1 0 = 0x0D) (hsub : out.getD 2 0 = 0x04)
    (hres : vial_combo st.combos (out.getD 3 0) = some (r, c)) :
    (process_vial fv tv out kid kdef st).combos =
      st.combos.set r { actions := decodedTriggers fv out, output := decodedOutput fv out } ∧
    (process_vial fv tv out kid kdef st).combos[r]? =
      some { actions := decodedTriggers fv out, output := decodedOutput fv out } ∧
    (decodedTriggers fv out).length ≤ 4 ∧
    vial_combo (process_vial fv tv out kid kdef st).combos (out.getD 3 0) =
      some (r, { actions := decodedTriggers fv out, output := decodedOutput fv out }) ∧
    (process_vial fv tv out kid kdef st).sent = st.sent ++
      [{ idx := r,
         actions := decodedTriggers fv out ++
           List.replicate (4 - (decodedTriggers fv out).length) KeyAction.No,
         output := decodedOutput fv out }] := by
  have hle : (decodedTriggers fv out).length ≤ 4 := by
    unfold decodedTriggers
    exact List.length_filter_le _ _
  obtain ⟨hget, helig, hcount⟩ := (vial_combo_eq_some_iff st.combos (out.getD 3 0) r c).mp hres
  have hr : r < st.combos.length := by
    by_contra hcon
    rw [List.getElem?_eq_none (by omega)] at hget
    exact Option.noConfusion hget
  rw [process_vial_comboSet_some fv tv out kid kdef st r c hcmd hsub hres]
  refine ⟨rfl, ?_, hle, ?_, ?_⟩
  · rw [getElem?_set_split, if_pos ⟨rfl, hr⟩]
  · exact vial_combo_set_resolved st.combos (out.getD 3 0) r c
      { actions := decodedTriggers fv out, output := decodedOutput fv out } hres hle
  · rw [writeSlice_replicate (decodedTriggers fv out) 4 KeyAction.No hle]

theorem comboSet_resolved_updates_witness :
    (([0xFE, 0x0D, 0x04, 0, 7, 0, 8, 0, 0, 0, 0, 0, 9, 0] : List Nat).getD 1 0 = 0x0D ∧
      ([0xFE, 0x0D, 0x04, 0, 7, 0, 8, 0, 0, 0, 0, 0, 9, 0] : List Nat).getD 2 0 = 0x04 ∧
      vial_combo (VialState.mk (List.replicate 32 170) [Combo.mk [] KeyAction.No] []).combos
        (([0xFE, 0x0D, 0x04, 0, 7, 0, 8, 0, 0, 0, 0, 0, 9, 0] : List Nat).getD 3 0) =
        some (0, Combo.mk [] KeyAction.No)) ∧
    ((process_vial modelFrom modelTo [0xFE, 0x0D, 0x04, 0, 7, 0, 8, 0, 0, 0, 0, 0, 9, 0] [] []
        ⟨List.replicate 32 170, [Combo.mk [] KeyAction.No], []⟩).combos =
      [Combo.mk [] KeyAction.No].set 0
        { actions := decodedTriggers modelFrom [0xFE, 0x0D, 0x04, 0, 7, 0, 8, 0, 0, 0, 0, 0, 9, 0],
          output := decodedOutput modelFrom [0xFE, 0x0D, 0x04, 0, 7, 0, 8, 0, 0, 0, 0, 0, 9, 0] } ∧
      (process_vial modelFrom modelTo [0xFE, 0x0D, 0x04, 0, 7, 0, 8, 0, 0, 0, 0, 0, 9, 0] [] []
        ⟨List.replicate 32 170, [Combo.mk [] KeyAction.No], []⟩).combos[0]? =
      some { actions := decodedTriggers modelFrom [0xFE, 0x0D, 0x04, 0, 7, 0, 8, 0, 0, 0, 0, 0, 9, 0],
             output := decodedOutput modelFrom [0xFE, 0x0D, 0x04, 0, 7, 0, 8, 0, 0, 0, 0, 0, 9, 0] } ∧
      (decodedTriggers modelFrom [0xFE, 0x0D, 0x04, 0, 7, 0, 8, 0, 0, 0, 0, 0, 9, 0]).length ≤ 4 ∧
      vial_combo (process_vial modelFrom modelTo
          [0xFE, 0x0D, 0x04, 0, 7, 0, 8, 0, 0, 0, 0, 0, 9, 0] [] []
          ⟨List.replicate 32 170, [Combo.mk [] KeyAction.No], []⟩).combos
        (([0xFE, 0x0D, 0x04, 0, 7, 0, 8, 0, 0, 0, 0, 0, 9, 0] : List Nat).getD 3 0) =
      some (0,
        { actions := decodedTriggers modelFrom [0xFE, 0x0D, 0x04, 0, 7, 0, 8, 0, 0, 0, 0, 0, 9, 0],
          output := decodedOutput modelFrom [0xFE, 0x0D, 0x04, 0, 7, 0, 8, 0, 0, 0, 0, 0, 9, 0] }) ∧
      (process_vial modelFrom modelTo [0xFE, 0x0D, 0x04, 0, 7, 0, 8, 0, 0, 0, 0, 0, 9, 0] [] []
        ⟨List.replicate 32 170, [Combo.mk [] KeyAction.No], []⟩).sent = [] ++
      [{ idx := 0,
         actions := decodedTriggers modelFrom [0xFE, 0x0D, 0x04, 0, 7, 0, 8, 0, 0, 0, 0, 0, 9, 0] ++
           List.replicate
             (4 - (decodedTriggers modelFrom
               [0xFE, 0x0D, 0x04, 0, 7, 0, 8, 0, 0, 0, 0, 0, 9, 0]).length) KeyAction.No,
         output := decodedOutput modelFrom [0xFE, 0x0D, 0x04, 0, 7, 0, 8, 0, 0, 0, 0, 0, 9, 0] }]) :=
  ⟨⟨by decide, by decide, by decide⟩,
    comboSet_resolved_updates modelFrom modelTo
      [0xFE, 0x0D, 0x04, 0, 7, 0, 8, 0, 0, 0, 0, 0, 9, 0] [] []
      ⟨List.replicate 32 170, [Combo.mk [] KeyAction.No], []⟩ 0 (Combo.mk [] KeyAction.No)
      (by decide) (by decide) (by decide)⟩




/-- C6: ComboSet with triggers `[A, B]` (A, B decoding to non-sentinel
actions, the remaining two trigger fields decoding to the sentinel) and
output `O`, followed by ComboGet of the same visible index, returns the
sentinel-padded triggers `[A, B, No, No]` and output `O`, provided the
index resolved in the first call and the translation functions invert each
other on the involved keycodes.  The replacement slot stays eligible, so
the second call resolves to the same real slot by itself. -/
theorem comboSet_comboGet_roundtrip (fv : Nat → KeyAction) (tv : KeyAction → Nat)
    (out1 out2 kid kdef : List Nat) (st : VialState) (r : Nat) (c : Combo)
    (hcmd1 : out1.getD 1 0 = 0x0D) (hsub1 : out1.getD 2 0 = 0x04)
    (hcmd2 : out2.getD 1 0 = 0x0D) (hsub2 : out2.getD 2 0 = 0x03)
    (hidx : out2.getD 3 0 = out1.getD 3 0)
    (hres : vial_combo st.combos (out1.getD 3 0) = some (r, c))
    (hA : fv (read_u16 out1 4) ≠ KeyAction.No)
    (hB : fv (read_u16 out1 6) ≠ KeyAction.No)
    (hw2 : fv (read_u16 out1 8) = KeyAction.No)
    (hw3 : fv (read_u16 out1 10) = KeyAction.No)
    (htA : tv (fv (read_u16 out1 4)) = read_u16 out1 4)
    (htB : tv (fv (read_u16 out1 6)) = read_u16 out1 6)
    (htO : tv (fv (read_u16 out1 12)) = read_u16 out1 12)
    (hA16 : read_u16 out1 4 < 65536) (hB16 : read_u16 out1 6 < 65536)
    (hO16 : read_u16 out1 12 < 65536) (hNo16 : tv KeyAction.No < 65536)
    (hlen : st.input_data.length = 32) :
    read_u16 (process_vial fv tv out2 kid kdef
        (process_vial fv tv out1 kid kdef st)).input_data 1 = read_u16 out1 4 ∧
    read_u16 (process_vial fv tv out2 kid kdef
        (process_vial fv tv out1 kid kdef st)).input_data 3 = read_u16 out1 6 ∧
    read_u16 (process_vial fv tv out2 kid kdef
        (process_vial fv tv out1 kid kdef st)).input_data 5 = tv KeyAction.No ∧
    read_u16 (process_vial fv tv out2 kid kdef
        (process_vial fv tv out1 kid kdef st)).input_data 7 = tv KeyAction.No ∧
    read_u16 (process_vial fv tv out2 kid kdef
        (process_vial fv tv out1 kid kdef st)).input_data 9 = read_u16 out1 12 := by
  have hdec : decodedTriggers fv out1 = [fv (read_u16 out1 4), fv (read_u16 out1 6)] := by
    unfold decodedTriggers
    rw [hw2, hw3]
    simp [List.filter, hA, hB]
  have hset := process_vial_comboSet_some fv tv out1 kid kdef st r c hcmd1 hsub1 hres
  have hlen2 : (Combo.mk (decodedTriggers fv out1)
      (decodedOutput fv out1)).actions.length ≤ VIAL_COMBO_MAX_LENGTH := by
    rw [show (Combo.mk (decodedTriggers fv out1) (decodedOutput fv out1)).actions =
        decodedTriggers fv out1 from rfl, hdec]
    simp [VIAL_COMBO_MAX_LENGTH]
  have hres2 : vial_combo (process_vial fv tv out1 kid kdef st).combos (out2.getD 3 0) =
      some (r, Combo.mk (decodedTriggers fv out1) (decodedOutput fv out1)) := by
    rw [hidx, hset]
    exact vial_combo_set_resolved st.combos (out1.getD 3 0) r c
      (Combo.mk (decodedTriggers fv out1) (decodedOutput fv out1)) hres hlen2
  have hget := process_vial_comboGet_some fv tv out2 kid kdef
    (process_vial fv tv out1 kid kdef st) r
    (Combo.mk (decodedTriggers fv out1) (decodedOutput fv out1))
    hcmd2 hsub2 hres2
  rw [hget, hset]
  dsimp only
  rw [hdec]
  have hb : (st.input_data.set 0 0).length = 32 := by
    rw [List.length_set, hlen]
  obtain ⟨e1, e3, e5, e7, e9⟩ := read_u16_comboGetEncode tv (st.input_data.set 0 0)
    (Combo.mk [fv (read_u16 out1 4), fv (read_u16 out1 6)] (decodedOutput fv out1)) hb
  refine ⟨?_, ?_, ?_, ?_, ?_⟩
  · rw [e1,
      show ((Combo.mk [fv (read_u16 out1 4), fv (read_u16 out1 6)]
          (decodedOutput fv out1)).actions.getD 0 KeyAction.No) =
        fv (read_u16 out1 4) from rfl,
      htA]
    exact Nat.mod_eq_of_lt hA16
  · rw [e3,
      show ((Combo.mk [fv (read_u16 out1 4), fv (read_u16 out1 6)]
          (decodedOutput fv out1)).actions.getD 1 KeyAction.No) =
        fv (read_u16 out1 6) from rfl,
      htB]
    exact Nat.mod_eq_of_lt hB16
  · rw [e5,
      show ((Combo.mk [fv (read_u16 out1 4), fv (read_u16 out1 6)]
          (decodedOutput fv out1)).actions.getD 2 KeyAction.No) =
        KeyAction.No from rfl]
    exact Nat.mod_eq_of_lt hNo16
  · rw [e7,
      show ((Combo.mk [fv (read_u16 out1 4), fv (read_u16 out1 6)]
          (decodedOutput fv out1)).actions.getD 3 KeyAction.No) =
        KeyAction.No from rfl]
    exact Nat.mod_eq_of_lt hNo16
  · rw [e9,
      show (Combo.mk [fv (read_u16 out1 4), fv (read_u16 out1 6)]
          (decodedOutput fv out1)).output = fv (read_u16 out1 12) from rfl,
      htO]
    exact Nat.mod_eq_of_lt hO16

theorem comboSet_comboGet_roundtrip_witness :
    (([0xFE, 0x0D, 0x04, 0, 7, 0, 8, 0, 0, 0, 0, 0, 9, 0] : List Nat).getD 1 0 = 0x0D ∧
      ([0xFE, 0x0D, 0x04, 0, 7, 0, 8, 0, 0, 0, 0, 0, 9, 0] : List Nat).getD 2 0 = 0x04 ∧
      ([0xFE, 0x0D, 0x03, 0] : List Nat).getD 1 0 = 0x0D ∧
      ([0xFE, 0x0D, 0x03, 0] : List Nat).getD 2 0 = 0x03 ∧
      ([0xFE, 0x0D, 0x03, 0] : List Nat).getD 3 0 =
        ([0xFE, 0x0D, 0x04, 0, 7, 0, 8, 0, 0, 0, 0, 0, 9, 0] : List Nat).getD 3 0 ∧
      vial_combo (VialState.mk (List.replicate 32 170) [Combo.mk [] KeyAction.No] []).combos
        (([0xFE, 0x0D, 0x04, 0, 7, 0, 8, 0, 0, 0, 0, 0, 9, 0] : List Nat).getD 3 0) =
        some (0, Combo.mk [] KeyAction.No) ∧
      modelFrom (read_u16 [0xFE, 0x0D, 0x04, 0, 7, 0, 8, 0, 0, 0, 0, 0, 9, 0] 4) ≠
        KeyAction.No ∧
      modelFrom (read_u16 [0xFE, 0x0D, 0x04, 0, 7, 0, 8, 0, 0, 0, 0, 0, 9, 0] 6) ≠
        KeyAction.No ∧
      modelFrom (read_u16 [0xFE, 0x0D, 0x04, 0, 7, 0, 8, 0, 0, 0, 0, 0, 9, 0] 8) =
        KeyAction.No ∧
      modelFrom (read_u16 [0xFE, 0x0D, 0x04, 0, 7, 0, 8, 0, 0, 0, 0, 0, 9, 0] 10) =
        KeyAction.No ∧
      (VialState.mk (List.replicate 32 170) [Combo.mk [] KeyAction.No] []).input_data.length
        = 32) ∧
    (read_u16 (process_vial modelFrom modelTo [0xFE, 0x0D, 0x03, 0] [] []
        (process_vial modelFrom modelTo [0xFE, 0x0D, 0x04, 0, 7, 0, 8, 0, 0, 0, 0, 0, 9, 0]
          [] [] ⟨List.replicate 32 170, [Combo.mk [] KeyAction.No], []⟩)).input_data 1 =
      read_u16 [0xFE, 0x0D, 0x04, 0, 7, 0, 8, 0, 0, 0, 0, 0, 9, 0] 4 ∧
    read_u16 (process_vial modelFrom modelTo [0xFE, 0x0D, 0x03, 0] [] []
        (process_vial modelFrom modelTo [0xFE, 0x0D, 0x04, 0, 7, 0, 8, 0, 0, 0, 0, 0, 9, 0]
          [] [] ⟨List.replicate 32 170, [Combo.mk [] KeyAction.No], []⟩)).input_data 3 =
      read_u16 [0xFE, 0x0D, 0x04, 0, 7, 0, 8, 0, 0, 0, 0, 0, 9, 0] 6 ∧
    read_u16 (process_vial modelFrom modelTo [0xFE, 0x0D, 0x03, 0] [] []
        (process_vial modelFrom modelTo [0xFE, 0x0D, 0x04, 0, 7, 0, 8, 0, 0, 0, 0, 0, 9, 0]
          [] [] ⟨List.replicate 32 170, [Combo.mk [] KeyAction.No], []⟩)).input_data 5 =
      modelTo KeyAction.No ∧
    read_u16 (process_vial modelFrom modelTo [0xFE, 0x0D, 0x03, 0] [] []
        (process_vial modelFrom modelTo [0xFE, 0x0D, 0x04, 0, 7, 0, 8, 0, 0, 0, 0, 0, 9, 0]
          [] [] ⟨List.replicate 32 170, [Combo.mk [] KeyAction.No], []⟩)).input_data 7 =
      modelTo KeyAction.No ∧
    read_u16 (process_vial modelFrom modelTo [0xFE, 0x0D, 0x03, 0] [] []
        (process_vial modelFrom modelTo [0xFE, 0x0D, 0x04, 0, 7, 0, 8, 0, 0, 0, 0, 0, 9, 0]
          [] [] ⟨List.replicate 32 170, [Combo.mk [] KeyAction.No], []⟩)).input_data 9 =
      read_u16 [0xFE, 0x0D, 0x04, 0, 7, 0, 8, 0, 0, 0, 0, 0, 9, 0] 12) :=
  ⟨⟨by decide, by decide, by decide, by decide, by decide, by decide, by decide, by decide,
      by decide, by decide, by decide⟩,
    comboSet_comboGet_roundtrip modelFrom modelTo
      [0xFE, 0x0D, 0x04, 0, 7, 0, 8, 0, 0, 0, 0, 0, 9, 0] [0xFE, 0x0D, 0x03, 0] [] []
      ⟨List.replicate 32 170, [Combo.mk [] KeyAction.No], []⟩ 0 (Combo.mk [] KeyAction.No)
      (by decide) (by decide) (by decide) (by decide) (by decide) (by decide) (by decide)
      (by decide) (by decide) (by decide) (by decide) (by decide) (by decide) (by decide)
      (by decide) (by decide) (by decide) (by decide)⟩
